import Mathlib

/-!
Shallow embedding of the batch ETL pipeline in src/pipeline.py
(queue drain, CSV-or-synthetic load, threshold fraud classifier,
ledger upsert writer, insert-once alert writer, run orchestrator).

Amounts are modelled as rationals, timestamps as naturals, the Redis
queue as a list of items popped from the front, and the two Postgres
tables as lists of rows. Database failures that the Python code can
hit mid-run (connection, schema DDL, batched writes) are modelled by
boolean failure-injection fields of the `World` record; the try/finally
of `main` is modelled by the `connReleased` field of the run result.
-/

namespace Pipeline

/-- A transaction as drained from the queue or loaded from the secondary
source: fields transaction_id, amount, location, device.
Missing location/device cells are `none` (pandas NaN / dict .get default). -/
structure Txn where
  transaction_id : String
  amount : ℚ
  location : Option String
  device : Option String
deriving DecidableEq

/-- An alert candidate as produced by detect_fraud. -/
structure AlertCand where
  transaction_id : String
  amount : ℚ
  risk_score : Nat
  flagged_reason : String
deriving DecidableEq

/-- A row of the transactions_all ledger table. -/
structure LedgerRow where
  transaction_id : String
  amount : ℚ
  location : Option String
  device : Option String
  processed_at : Nat
  is_flagged : Bool
  risk_score : Option Nat
  flagged_reason : Option String
deriving DecidableEq

/-- A row of the fraud_alerts table. -/
structure AlertRow where
  alert_id : Nat
  transaction_id : String
  amount : ℚ
  risk_score : Nat
  flagged_reason : String
  created_at : Nat
deriving DecidableEq

/-- The fraud_alerts table: its rows plus the SERIAL sequence counter
backing alert_id. -/
structure AlertTable where
  rows : List AlertRow
  nextId : Nat
deriving DecidableEq

/-- A queue item: a payload that either deserializes to a transaction or
fails to parse (json.loads raises). -/
inductive QItem where
  | good (t : Txn) : QItem
  | bad (raw : String) : QItem
deriving DecidableEq

/-- Deserialization of one queue item (json.loads in drain_queue). -/
def parseItem : QItem → Option Txn
  | .good t => some t
  | .bad _ => none

/-- The drain loop of drain_queue: pop from the front at most `cap` times,
stop on an empty queue, propagate a deserialization failure. Returns the
outcome together with the remaining queue (popped items are destructively
removed, also the item whose parse failed). -/
def drain_loop : Nat → List QItem → Except Unit (List Txn) × List QItem
  | 0, q => (.ok [], q)
  | _ + 1, [] => (.ok [], [])
  | n + 1, it :: q =>
    match parseItem it with
    | none => (.error (), q)
    | some t =>
      match drain_loop n q with
      | (.ok ts, q2) => (.ok (t :: ts), q2)
      | (.error e, q2) => (.error e, q2)

/-- The column list of the empty DataFrame returned when no queue is
configured (source line 76). -/
def txnCols : List String :=
  ["transaction_id", "amount", "location", "device"]

/-- The DataFrame returned by drain_queue: column names plus rows. -/
structure QDF where
  cols : List String
  rows : List Txn
deriving DecidableEq

/-- drain_queue: when REDIS_URL is unset, return an empty DataFrame with
the four transaction columns without touching the queue; otherwise run
the bounded drain loop with cap 5000. -/
def drain_queue (redisConfigured : Bool) (queue : List QItem) :
    Except Unit QDF × List QItem :=
  if redisConfigured then
    match drain_loop 5000 queue with
    | (.ok ts, q2) => (.ok ⟨if ts.isEmpty then [] else txnCols, ts⟩, q2)
    | (.error e, q2) => (.error e, q2)
  else
    (.ok ⟨txnCols, []⟩, queue)

/-- The synthetic demo data of load_file_or_synthetic: 50 records whose
ids are TXN(baseId + i) for i = 1..50, amount 25 * i except a 25000 spike
on every 7th record, location USA except CAN on every 3rd, device Web on
odd i and Mobile on even i. -/
def synthetic_records (baseId : Nat) : List Txn :=
  (List.range 50).map (fun j =>
    { transaction_id := "TXN" ++ toString (baseId + (j + 1))
      amount := if (j + 1) % 7 = 0 then 25000 else ((25 * (j + 1) : ℕ) : ℚ)
      location := some (if (j + 1) % 3 = 0 then "CAN" else "USA")
      device := some (if (j + 1) % 2 = 0 then "Mobile" else "Web") })

/-- A secondary-source CSV file: the column names it declares and the
transactions its rows parse to. -/
structure CsvFile where
  cols : List String
  rows : List Txn
deriving DecidableEq

inductive LoadErr where
  | missingColumns : LoadErr
deriving DecidableEq

/-- load_file_or_synthetic: if a CSV file is present it must contain the
columns transaction_id and amount, otherwise a ValueError aborts the run;
if no file is present the synthetic generator seeded by the current time
is used. -/
def load_file_or_synthetic (file : Option CsvFile) (timeNow : Nat) :
    Except LoadErr (List Txn) :=
  match file with
  | some f =>
    if "transaction_id" ∈ f.cols ∧ "amount" ∈ f.cols then .ok f.rows
    else .error .missingColumns
  | none => .ok (synthetic_records timeNow)

/-- The alert-candidate dict detect_fraud appends for a flagged row. -/
def mkCand (t : Txn) : AlertCand :=
  { transaction_id := t.transaction_id
    amount := t.amount
    risk_score := 90
    flagged_reason := "high_amount" }

/-- detect_fraud: iterate the working set in order, appending an alert
candidate with risk_score 90 and flagged_reason high_amount for every row
whose amount is at least 10000. -/
def detect_fraud (df : List Txn) : List AlertCand :=
  df.foldl
    (fun alerts r => if 10000 ≤ r.amount then alerts ++ [mkCand r] else alerts)
    []

/-- The Python dict comprehension building alert_lookup: for a repeated
transaction_id the later candidate wins. -/
def alertLookup (alerts : List AlertCand) (tid : String) : Option AlertCand :=
  alerts.foldl (fun acc a => if a.transaction_id = tid then some a else acc) none

/-- The ledger row write_all_transactions builds for one transaction. -/
def mkLedgerRow (now : Nat) (alerts : List AlertCand) (t : Txn) : LedgerRow :=
  let a := alertLookup alerts t.transaction_id
  { transaction_id := t.transaction_id
    amount := t.amount
    location := t.location
    device := t.device
    processed_at := now
    is_flagged := a.isSome
    risk_score := a.map (fun c => c.risk_score)
    flagged_reason := a.map (fun c => c.flagged_reason) }

/-- Lookup of the ledger row keyed by transaction_id. -/
def lookupL : List LedgerRow → String → Option LedgerRow
  | [], _ => none
  | l :: tl, tid => if l.transaction_id = tid then some l else lookupL tl tid

/-- One INSERT ... ON CONFLICT (transaction_id) DO UPDATE statement:
if the key is present overwrite the mutable fields of that row in place,
otherwise append a new row. -/
def upsertRow (tbl : List LedgerRow) (row : LedgerRow) : List LedgerRow :=
  match lookupL tbl row.transaction_id with
  | some _ =>
    tbl.map (fun l => if l.transaction_id = row.transaction_id then row else l)
  | none => tbl ++ [row]

/-- The batched upsert loop of write_all_transactions, one upsert per
working-set row, in order. -/
def applyRows (now : Nat) (alerts : List AlertCand) (tbl : List LedgerRow)
    (df : List Txn) : List LedgerRow :=
  df.foldl (fun t r => upsertRow t (mkLedgerRow now alerts r)) tbl

/-- write_all_transactions: return immediately on an empty working set,
otherwise upsert every row into the ledger table. -/
def write_all_transactions (now : Nat) (df : List Txn)
    (alerts : List AlertCand) (tbl : List LedgerRow) : List LedgerRow :=
  if df.isEmpty then tbl else applyRows now alerts tbl df

/-- One INSERT ... ON CONFLICT (transaction_id) DO NOTHING statement on
the fraud_alerts table. The SERIAL sequence advances even when the insert
is skipped, as the default is evaluated before conflict detection. -/
def insertAlert (now : Nat) (tbl : AlertTable) (c : AlertCand) : AlertTable :=
  if tbl.rows.any (fun a => a.transaction_id == c.transaction_id) then
    { tbl with nextId := tbl.nextId + 1 }
  else
    { rows := tbl.rows ++
        [{ alert_id := tbl.nextId
           transaction_id := c.transaction_id
           amount := c.amount
           risk_score := c.risk_score
           flagged_reason := c.flagged_reason
           created_at := now }]
      nextId := tbl.nextId + 1 }

/-- write_alerts: return 0 at once on an empty candidate list without
touching the database, otherwise insert every candidate (conflicts do
nothing) and return the attempted count len(alerts). -/
def write_alerts (now : Nat) (alerts : List AlertCand) (tbl : AlertTable) :
    AlertTable × Nat :=
  if alerts.isEmpty then (tbl, 0)
  else (alerts.foldl (insertAlert now) tbl, alerts.length)

/-- The merge in main: pd.concat([qdf, base]) if qdf is nonempty, else
base alone — queue rows first, secondary rows second. -/
def mergeWorkingSet (qrows base : List Txn) : List Txn :=
  if qrows.isEmpty then base else qrows ++ base

/-- The database state the pipeline writes to. -/
structure DB where
  ledger : List LedgerRow
  alertT : AlertTable
deriving DecidableEq

/-- Failure-injection and input environment of one run. -/
structure World where
  connectOk : Bool
  schemaOk : Bool
  ledgerWriteOk : Bool
  alertWriteOk : Bool
  redisConfigured : Bool
  queue : List QItem
  file : Option CsvFile
  now : Nat

inductive RunErr where
  | connectFailed | schemaFailed | deserFailed | badFile
  | ledgerWriteFailed | alertWriteFailed
deriving DecidableEq

/-- The final report of a successful run. -/
structure Summary where
  total_transactions : Nat
  total_flagged : Nat
  alerts_inserted : Nat
deriving DecidableEq

/-- Observable outcome of one run of main: database state, remaining
queue, connection lifecycle flags, and the outcome (summary or error). -/
structure RunResult where
  db : DB
  queue : List QItem
  connAcquired : Bool
  connReleased : Bool
  outcome : Except RunErr Summary

/-- The process exit code: 0 on success, nonzero when any error
propagates out of main. -/
def exitCode (res : RunResult) : Nat :=
  match res.outcome with
  | .ok _ => 0
  | .error _ => 1

/-- main: connect, then inside try/finally ensure schema, drain the
queue, load the secondary source, merge, classify, write the ledger then
the alerts; the finally clause closes the connection on every path after
acquisition. A failing batched write rolls back its own statement block,
leaving that table unchanged; an empty input to either writer performs no
database access at all and so cannot fail. -/
def main (w : World) (db : DB) : RunResult :=
  if w.connectOk then
    if w.schemaOk then
      match drain_queue w.redisConfigured w.queue with
      | (.error _, q2) => ⟨db, q2, true, true, .error .deserFailed⟩
      | (.ok qdf, q2) =>
        match load_file_or_synthetic w.file w.now with
        | .error _ => ⟨db, q2, true, true, .error .badFile⟩
        | .ok base =>
          let df := mergeWorkingSet qdf.rows base
          let alerts := detect_fraud df
          if df.isEmpty = false ∧ w.ledgerWriteOk = false then
            ⟨db, q2, true, true, .error .ledgerWriteFailed⟩
          else
            let ledger2 := write_all_transactions w.now df alerts db.ledger
            if alerts.isEmpty = false ∧ w.alertWriteOk = false then
              ⟨⟨ledger2, db.alertT⟩, q2, true, true, .error .alertWriteFailed⟩
            else
              let wa := write_alerts w.now alerts db.alertT
              ⟨⟨ledger2, wa.1⟩, q2, true, true,
                .ok ⟨df.length, alerts.length, wa.2⟩⟩
    else ⟨db, w.queue, true, true, .error .schemaFailed⟩
  else ⟨db, w.queue, false, false, .error .connectFailed⟩

/-! ### Derived notions used in the statements -/

/-- The key column of the ledger table. -/
def keysOf (tbl : List LedgerRow) : List String :=
  tbl.map (fun l => l.transaction_id)

/-- Exactly one row per transaction_id is possible at all only when the
key column has no duplicates. -/
def NodupKeys (tbl : List LedgerRow) : Prop :=
  (keysOf tbl).Nodup

/-- The last row of the working set carrying a given transaction_id. -/
def lastOcc : List Txn → String → Option Txn
  | [], _ => none
  | t :: ts, k =>
    match lastOcc ts k with
    | some u => some u
    | none => if t.transaction_id = k then some t else none

/-- Whether the alert table already has a row for a transaction_id, the
conflict condition of the insert-once statement. -/
def hasAlert (rows : List AlertRow) (k : String) : Bool :=
  rows.any (fun a => a.transaction_id == k)

/-- One alert row per transaction_id. -/
def NodupAlertKeys (rows : List AlertRow) : Prop :=
  (rows.map (fun a => a.transaction_id)).Nodup

/-- The consistency invariant of the two tables: every alert row has a
ledger row with the same transaction_id. -/
def AlertsSubsetLedger (db : DB) : Prop :=
  ∀ a ∈ db.alertT.rows, ∃ l ∈ db.ledger, l.transaction_id = a.transaction_id

/-! ### Concrete sample data used in instances and witnesses -/

def tA : Txn := { transaction_id := "A", amount := 1, location := none, device := none }

def tB : Txn := { transaction_id := "B", amount := 2, location := none, device := none }

def tC : Txn := { transaction_id := "C", amount := 3, location := none, device := none }

def tD : Txn := { transaction_id := "D", amount := 4, location := none, device := none }

/-- The queue copy of a duplicated transaction_id. -/
def tQdup : Txn :=
  { transaction_id := "X", amount := 100, location := some "USA", device := some "Web" }

/-- The secondary-source copy of the same transaction_id, processed later. -/
def tBdup : Txn :=
  { transaction_id := "X", amount := 200, location := some "CAN", device := some "Mobile" }

/-- A transaction just below the threshold. -/
def tLow : Txn :=
  { transaction_id := "B1", amount := 9999.99, location := none, device := none }

/-- A transaction exactly at the threshold. -/
def tHigh : Txn :=
  { transaction_id := "B2", amount := 10000, location := none, device := none }

/-- A concrete alert candidate. -/
def cX : AlertCand :=
  { transaction_id := "X", amount := 10000, risk_score := 90,
    flagged_reason := "high_amount" }

/-- A concrete stream of parseable queue payloads. -/
def sampleTxns (n : Nat) : List Txn :=
  (List.range n).map (fun i =>
    { transaction_id := toString i, amount := 1, location := none, device := none })

/-- An empty database. -/
def db0 : DB := { ledger := [], alertT := { rows := [], nextId := 1 } }

/-- A world whose schema DDL fails after a successful connect. -/
def w9 : World :=
  { connectOk := true, schemaOk := false, ledgerWriteOk := true,
    alertWriteOk := true, redisConfigured := false, queue := [],
    file := none, now := 0 }

/-- A healthy world whose queue holds one unparsable item. -/
def w6 : World :=
  { connectOk := true, schemaOk := true, ledgerWriteOk := true,
    alertWriteOk := true, redisConfigured := true,
    queue := [QItem.bad "oops"], file := none, now := 0 }

/-- A healthy world with no queue configured and no secondary file. -/
def w10 : World :=
  { connectOk := true, schemaOk := true, ledgerWriteOk := true,
    alertWriteOk := true, redisConfigured := false, queue := [],
    file := none, now := 0 }

/-- A CSV file missing both required columns. -/
def badCsv : CsvFile := { cols := ["foo"], rows := [] }

/-- A healthy world whose secondary file lacks the required columns. -/
def w8 : World :=
  { connectOk := true, schemaOk := true, ledgerWriteOk := true,
    alertWriteOk := true, redisConfigured := false, queue := [],
    file := some badCsv, now := 0 }

/-! ### Helper lemmas about the classifier -/

/-- The classifier loop is the filter-then-map of its body over the input. -/
theorem detect_fraud_foldl (df : List Txn) (acc : List AlertCand) :
    df.foldl
      (fun alerts r => if 10000 ≤ r.amount then alerts ++ [mkCand r] else alerts)
      acc
      = acc ++ (df.filter (fun t => decide (10000 ≤ t.amount))).map mkCand := by
  induction df generalizing acc with
  | nil => simp
  | cons t ts ih =>
    by_cases h : 10000 ≤ t.amount
    · simp [List.foldl_cons, h, ih, List.filter_cons]
    · simp [List.foldl_cons, h, ih, List.filter_cons]

/-- detect_fraud keeps exactly the rows at or above the threshold, in order. -/
theorem detect_fraud_eq (df : List Txn) :
    detect_fraud df
      = (df.filter (fun t => decide (10000 ≤ t.amount))).map mkCand := by
  simpa using detect_fraud_foldl df []

/-- Every candidate id is the id of some transaction of the working set. -/
theorem detect_fraud_ids (df : List Txn) (c : AlertCand)
    (h : c ∈ detect_fraud df) :
    ∃ t ∈ df, c.transaction_id = t.transaction_id := by
  rw [detect_fraud_eq] at h
  rcases List.mem_map.mp h with ⟨t, ht, rfl⟩
  exact ⟨t, List.mem_of_mem_filter ht, rfl⟩

/-! ### Helper lemmas about the drain loop -/

/-- Draining a queue of parseable items returns the first cap items in
order and leaves the rest of the queue. -/
theorem drain_loop_all_good (cap : Nat) (ts : List Txn) :
    drain_loop cap (ts.map QItem.good)
      = (.ok (ts.take cap), (ts.map QItem.good).drop cap) := by
  induction cap generalizing ts with
  | zero => simp [drain_loop]
  | succ n ih =>
    cases ts with
    | nil => simp [drain_loop]
    | cons t ts => simp [drain_loop, parseItem, ih]

/-- A parse failure stops the drain: the failing item and everything
before it are already removed, everything after it stays queued. -/
theorem drain_loop_bad (cap : Nat) (gs : List Txn) (s : String)
    (rest : List QItem) (h : gs.length < cap) :
    drain_loop cap (gs.map QItem.good ++ QItem.bad s :: rest)
      = (.error (), rest) := by
  induction gs generalizing cap with
  | nil =>
    cases cap with
    | zero => omega
    | succ n => simp [drain_loop, parseItem]
  | cons g gs ih =>
    cases cap with
    | zero => omega
    | succ n =>
      simp only [List.map_cons, List.cons_append, drain_loop, parseItem,
        List.append_eq]
      rw [ih n (by simpa using h)]

/-! ### Helper lemmas about the ledger table -/

theorem mkLedgerRow_tid (now : Nat) (alerts : List AlertCand) (t : Txn) :
    (mkLedgerRow now alerts t).transaction_id = t.transaction_id := rfl

theorem lookupL_append (t1 t2 : List LedgerRow) (k : String) :
    lookupL (t1 ++ t2) k = (lookupL t1 k).or (lookupL t2 k) := by
  induction t1 with
  | nil => simp [lookupL]
  | cons l tl ih =>
    by_cases h : l.transaction_id = k
    · simp [lookupL, h]
    · simp [lookupL, h, ih]

theorem lookupL_mem (tbl : List LedgerRow) (k : String) (r : LedgerRow)
    (h : lookupL tbl k = some r) : r ∈ tbl ∧ r.transaction_id = k := by
  induction tbl with
  | nil => simp [lookupL] at h
  | cons l tl ih =>
    by_cases hl : l.transaction_id = k
    · simp [lookupL, hl] at h
      subst h
      exact ⟨List.mem_cons_self _ _, hl⟩
    · simp [lookupL, hl] at h
      rcases ih h with ⟨hm, hk⟩
      exact ⟨List.mem_cons_of_mem _ hm, hk⟩

theorem lookupL_isSome_iff (tbl : List LedgerRow) (k : String) :
    (lookupL tbl k).isSome ↔ ∃ l ∈ tbl, l.transaction_id = k := by
  induction tbl with
  | nil => simp [lookupL]
  | cons l tl ih =>
    by_cases hl : l.transaction_id = k
    · simp [lookupL, hl]
    · simp [lookupL, hl, ih]

theorem lookupL_none_iff (tbl : List LedgerRow) (k : String) :
    lookupL tbl k = none ↔ k ∉ keysOf tbl := by
  rw [← Option.not_isSome_iff_eq_none, lookupL_isSome_iff]
  simp only [keysOf, List.mem_map, not_exists, not_and]

theorem lookupL_map_update_self (tbl : List LedgerRow) (row : LedgerRow)
    (h : (lookupL tbl row.transaction_id).isSome) :
    lookupL
      (tbl.map (fun l =>
        if l.transaction_id = row.transaction_id then row else l))
      row.transaction_id = some row := by
  induction tbl with
  | nil => simp [lookupL] at h
  | cons l tl ih =>
    by_cases hl : l.transaction_id = row.transaction_id
    · simp [lookupL, hl]
    · simp [lookupL, hl] at h ⊢
      exact ih h

theorem lookupL_map_update_ne (tbl : List LedgerRow) (row : LedgerRow)
    (k : String) (h : row.transaction_id ≠ k) :
    lookupL
      (tbl.map (fun l =>
        if l.transaction_id = row.transaction_id then row else l))
      k = lookupL tbl k := by
  induction tbl with
  | nil => simp [lookupL]
  | cons l tl ih =>
    simp only [List.map_cons, lookupL]
    by_cases hl : l.transaction_id = row.transaction_id
    · have hlk : ¬ l.transaction_id = k := by rw [hl]; exact h
      rw [if_pos hl, if_neg h, if_neg hlk]
      exact ih
    · rw [if_neg hl]
      by_cases hk : l.transaction_id = k
      · rw [if_pos hk, if_pos hk]
      · rw [if_neg hk, if_neg hk]
        exact ih

/-- The single-statement upsert seen through lookup. -/
theorem lookupL_upsert (tbl : List LedgerRow) (row : LedgerRow) (k : String) :
    lookupL (upsertRow tbl row) k
      = if row.transaction_id = k then some row else lookupL tbl k := by
  unfold upsertRow
  cases hfind : lookupL tbl row.transaction_id with
  | some r =>
    by_cases hk : row.transaction_id = k
    · subst hk
      simp [lookupL_map_update_self tbl row (by simp [hfind])]
    · simp [hk, lookupL_map_update_ne tbl row k hk]
  | none =>
    rw [lookupL_append]
    by_cases hk : row.transaction_id = k
    · subst hk
      simp [hfind, lookupL]
    · simp [lookupL, hk]

theorem keysOf_upsert_update (tbl : List LedgerRow) (row : LedgerRow)
    (r : LedgerRow) (h : lookupL tbl row.transaction_id = some r) :
    keysOf (upsertRow tbl row) = keysOf tbl := by
  unfold upsertRow
  rw [h]
  simp only [keysOf, List.map_map]
  apply List.map_congr_left
  intro l _
  by_cases hl : l.transaction_id = row.transaction_id
  · simp [hl]
  · simp [hl]

theorem keysOf_upsert_new (tbl : List LedgerRow) (row : LedgerRow)
    (h : lookupL tbl row.transaction_id = none) :
    keysOf (upsertRow tbl row) = keysOf tbl ++ [row.transaction_id] := by
  unfold upsertRow
  rw [h]
  simp [keysOf]

/-- The upsert never introduces a duplicate key. -/
theorem NodupKeys_upsert (tbl : List LedgerRow) (row : LedgerRow)
    (h : NodupKeys tbl) : NodupKeys (upsertRow tbl row) := by
  cases hfind : lookupL tbl row.transaction_id with
  | some r => rw [NodupKeys, keysOf_upsert_update tbl row r hfind]; exact h
  | none =>
    rw [NodupKeys, keysOf_upsert_new tbl row hfind]
    have hnot : row.transaction_id ∉ keysOf tbl :=
      (lookupL_none_iff tbl row.transaction_id).mp hfind
    simpa [List.nodup_append] using ⟨h, hnot⟩

/-- The batched upsert loop never introduces a duplicate key. -/
theorem NodupKeys_applyRows (now : Nat) (alerts : List AlertCand)
    (df : List Txn) (tbl : List LedgerRow) (h : NodupKeys tbl) :
    NodupKeys (applyRows now alerts tbl df) := by
  induction df generalizing tbl with
  | nil => simpa [applyRows] using h
  | cons t ts ih =>
    have : applyRows now alerts tbl (t :: ts)
        = applyRows now alerts (upsertRow tbl (mkLedgerRow now alerts t)) ts :=
      rfl
    rw [this]
    exact ih _ (NodupKeys_upsert _ _ h)

theorem lastOcc_tid (df : List Txn) (k : String) (u : Txn)
    (h : lastOcc df k = some u) : u.transaction_id = k := by
  induction df with
  | nil => simp [lastOcc] at h
  | cons t ts ih =>
    unfold lastOcc at h
    cases hts : lastOcc ts k with
    | some v => rw [hts] at h; cases h; exact ih hts
    | none =>
      rw [hts] at h
      by_cases ht : t.transaction_id = k
      · rw [if_pos ht] at h; cases h; exact ht
      · rw [if_neg ht] at h; cases h

theorem lastOcc_isSome_of_mem (df : List Txn) (t : Txn) (h : t ∈ df) :
    ∃ u, lastOcc df t.transaction_id = some u
      ∧ u.transaction_id = t.transaction_id := by
  induction df with
  | nil => cases h
  | cons s ts ih =>
    rcases List.mem_cons.mp h with rfl | hmem
    · cases hts : lastOcc ts t.transaction_id with
      | some v => exact ⟨v, by simp [lastOcc, hts], lastOcc_tid ts _ v hts⟩
      | none => exact ⟨t, by simp [lastOcc, hts], rfl⟩
    · rcases ih hmem with ⟨u, hu, hk⟩
      exact ⟨u, by simp [lastOcc, hu], hk⟩

/-- Lookup after the batched upsert loop: the last occurrence of the key
in the working set wins, keys absent from the working set are untouched. -/
theorem lookupL_applyRows (now : Nat) (alerts : List AlertCand)
    (df : List Txn) (tbl : List LedgerRow) (k : String) :
    lookupL (applyRows now alerts tbl df) k
      = match lastOcc df k with
        | some t => some (mkLedgerRow now alerts t)
        | none => lookupL tbl k := by
  induction df generalizing tbl with
  | nil => simp [applyRows, lastOcc]
  | cons t ts ih =>
    have hstep : applyRows now alerts tbl (t :: ts)
        = applyRows now alerts (upsertRow tbl (mkLedgerRow now alerts t)) ts :=
      rfl
    rw [hstep, ih]
    cases hts : lastOcc ts k with
    | some u => simp [lastOcc, hts]
    | none =>
      simp only [lastOcc, hts, lookupL_upsert, mkLedgerRow_tid]
      by_cases ht : t.transaction_id = k
      · simp [ht]
      · simp [ht]

theorem write_all_eq (now : Nat) (df : List Txn) (alerts : List AlertCand)
    (tbl : List LedgerRow) :
    write_all_transactions now df alerts tbl = applyRows now alerts tbl df := by
  cases df with
  | nil => simp [write_all_transactions, applyRows]
  | cons t ts => simp [write_all_transactions]

/-! ### Helper lemmas about the alert table -/

theorem insertAlert_rows_conflict (now : Nat) (tbl : AlertTable)
    (c : AlertCand) (h : hasAlert tbl.rows c.transaction_id = true) :
    (insertAlert now tbl c).rows = tbl.rows := by
  unfold insertAlert
  rw [show tbl.rows.any (fun a => a.transaction_id == c.transaction_id)
      = hasAlert tbl.rows c.transaction_id from rfl, h]
  simp

theorem insertAlert_rows_new (now : Nat) (tbl : AlertTable) (c : AlertCand)
    (h : hasAlert tbl.rows c.transaction_id = false) :
    (insertAlert now tbl c).rows = tbl.rows ++
      [{ alert_id := tbl.nextId
         transaction_id := c.transaction_id
         amount := c.amount
         risk_score := c.risk_score
         flagged_reason := c.flagged_reason
         created_at := now }] := by
  unfold insertAlert
  rw [show tbl.rows.any (fun a => a.transaction_id == c.transaction_id)
      = hasAlert tbl.rows c.transaction_id from rfl, h]
  simp

theorem hasAlert_insertAlert_mono (now : Nat) (tbl : AlertTable)
    (c : AlertCand) (k : String) (h : hasAlert tbl.rows k = true) :
    hasAlert (insertAlert now tbl c).rows k = true := by
  cases hc : hasAlert tbl.rows c.transaction_id with
  | true => rw [insertAlert_rows_conflict now tbl c hc]; exact h
  | false =>
    rw [insertAlert_rows_new now tbl c hc]
    unfold hasAlert at h ⊢
    rw [List.any_append, h]
    rfl

theorem hasAlert_insertAlert_self (now : Nat) (tbl : AlertTable)
    (c : AlertCand) :
    hasAlert (insertAlert now tbl c).rows c.transaction_id = true := by
  cases hc : hasAlert tbl.rows c.transaction_id with
  | true => rw [insertAlert_rows_conflict now tbl c hc]; exact hc
  | false =>
    rw [insertAlert_rows_new now tbl c hc]
    unfold hasAlert
    simp

/-- An already-present id stays present across the whole insert loop. -/
theorem hasAlert_foldl_mono (now : Nat) (cands : List AlertCand) :
    ∀ tbl : AlertTable, ∀ k, hasAlert tbl.rows k = true →
      hasAlert ((cands.foldl (insertAlert now) tbl).rows) k = true := by
  induction cands with
  | nil => intro tbl k h; exact h
  | cons d ds ih =>
    intro tbl k h
    rw [List.foldl_cons]
    exact ih _ k (hasAlert_insertAlert_mono now tbl d k h)

/-- After the insert loop, every candidate id has a row. -/
theorem hasAlert_foldl_insertAlert (now : Nat) (cands : List AlertCand) :
    ∀ tbl : AlertTable, ∀ c ∈ cands,
      hasAlert (cands.foldl (insertAlert now) tbl).rows c.transaction_id
        = true := by
  induction cands with
  | nil => intro tbl c hc; cases hc
  | cons d ds ih =>
    intro tbl c hc
    rcases List.mem_cons.mp hc with rfl | hmem
    · rw [List.foldl_cons]
      exact hasAlert_foldl_mono now ds _ _ (hasAlert_insertAlert_self now tbl c)
    · exact ih (insertAlert now tbl d) c hmem

/-- When every candidate id already has a row, the insert loop changes
no rows (the SERIAL counter may still advance). -/
theorem foldl_insertAlert_rows_covered (now : Nat) (cands : List AlertCand) :
    ∀ tbl : AlertTable,
      (∀ c ∈ cands, hasAlert tbl.rows c.transaction_id = true) →
      (cands.foldl (insertAlert now) tbl).rows = tbl.rows := by
  induction cands with
  | nil => intro tbl _; rfl
  | cons d ds ih =>
    intro tbl h
    rw [List.foldl_cons]
    have hd : hasAlert tbl.rows d.transaction_id = true :=
      h d (List.mem_cons_self _ _)
    have hrows := insertAlert_rows_conflict now tbl d hd
    rw [ih (insertAlert now tbl d)
      (fun c hc => by rw [hrows]; exact h c (List.mem_cons_of_mem _ hc))]
    exact hrows

/-- Any row present after the insert loop was present before or carries
the id of one of the candidates. -/
theorem mem_foldl_insertAlert (now : Nat) (cands : List AlertCand) :
    ∀ tbl : AlertTable, ∀ a ∈ (cands.foldl (insertAlert now) tbl).rows,
      a ∈ tbl.rows ∨ ∃ c ∈ cands, a.transaction_id = c.transaction_id := by
  induction cands with
  | nil => intro tbl a ha; exact Or.inl ha
  | cons d ds ih =>
    intro tbl a ha
    rw [List.foldl_cons] at ha
    rcases ih (insertAlert now tbl d) a ha with hmem | ⟨c, hc, hk⟩
    · cases hd : hasAlert tbl.rows d.transaction_id with
      | true =>
        rw [insertAlert_rows_conflict now tbl d hd] at hmem
        exact Or.inl hmem
      | false =>
        rw [insertAlert_rows_new now tbl d hd] at hmem
        rcases List.mem_append.mp hmem with hmem | hmem
        · exact Or.inl hmem
        · simp only [List.mem_singleton] at hmem
          subst hmem
          exact Or.inr ⟨d, List.mem_cons_self _ _, rfl⟩
    · exact Or.inr ⟨c, List.mem_cons_of_mem _ hc, hk⟩

theorem NodupAlertKeys_insertAlert (now : Nat) (tbl : AlertTable)
    (c : AlertCand) (h : NodupAlertKeys tbl.rows) :
    NodupAlertKeys (insertAlert now tbl c).rows := by
  cases hc : hasAlert tbl.rows c.transaction_id with
  | true => rw [insertAlert_rows_conflict now tbl c hc]; exact h
  | false =>
    rw [insertAlert_rows_new now tbl c hc]
    have hnot : ∀ a ∈ tbl.rows, ¬ a.transaction_id = c.transaction_id := by
      unfold hasAlert at hc
      simp only [List.any_eq_false, beq_iff_eq] at hc
      exact hc
    unfold NodupAlertKeys at h ⊢
    simpa [List.nodup_append] using ⟨h, hnot⟩

theorem NodupAlertKeys_foldl_insertAlert (now : Nat) (cands : List AlertCand) :
    ∀ tbl : AlertTable, NodupAlertKeys tbl.rows →
      NodupAlertKeys ((cands.foldl (insertAlert now) tbl).rows) := by
  induction cands with
  | nil => intro tbl h; exact h
  | cons d ds ih =>
    intro tbl h
    rw [List.foldl_cons]
    exact ih _ (NodupAlertKeys_insertAlert now tbl d h)

/-! ### Further shared lemmas -/

/-- Under distinct keys, at most one ledger row matches a given key. -/
theorem filter_key_le_one (tbl : List LedgerRow) (k : String)
    (h : NodupKeys tbl) :
    (tbl.filter (fun l => l.transaction_id == k)).length ≤ 1 := by
  induction tbl with
  | nil => simp
  | cons l tl ih =>
    have hcons := h
    unfold NodupKeys keysOf at hcons
    rw [List.map_cons, List.nodup_cons] at hcons
    obtain ⟨hnotin, htl⟩ := hcons
    by_cases hl : l.transaction_id = k
    · have hfil : tl.filter (fun x => x.transaction_id == k) = [] := by
        rw [List.filter_eq_nil_iff]
        intro a ha
        simp only [beq_iff_eq]
        intro hak
        exact hnotin (List.mem_map.mpr ⟨a, ha, by rw [hak, hl]⟩)
      simp [List.filter_cons, hl, hfil]
    · simp only [List.filter_cons, beq_iff_eq, hl]
      simpa using ih htl

/-- A key with a row has at least one matching ledger row. -/
theorem filter_key_ge_one (tbl : List LedgerRow) (k : String) (r : LedgerRow)
    (h : lookupL tbl k = some r) :
    1 ≤ (tbl.filter (fun l => l.transaction_id == k)).length := by
  rcases lookupL_mem tbl k r h with ⟨hm, hk⟩
  have hmem : r ∈ tbl.filter (fun l => l.transaction_id == k) :=
    List.mem_filter.mpr ⟨hm, by simp [hk]⟩
  exact List.length_pos_of_mem hmem

/-- The rows written by write_alerts are those of the insert loop, also
for the empty early return. -/
theorem write_alerts_rows (now : Nat) (cands : List AlertCand)
    (tbl : AlertTable) :
    (write_alerts now cands tbl).1.rows
      = (cands.foldl (insertAlert now) tbl).rows := by
  cases cands with
  | nil => rfl
  | cons c cs => rfl

/-- The ledger writer never loses an existing key. -/
theorem subset_ledger_write_all (now : Nat) (df : List Txn)
    (alerts : List AlertCand) (tbl : List LedgerRow) (k : String)
    (h : ∃ l ∈ tbl, l.transaction_id = k) :
    ∃ l ∈ write_all_transactions now df alerts tbl, l.transaction_id = k := by
  rw [← lookupL_isSome_iff] at h ⊢
  rw [write_all_eq, lookupL_applyRows]
  cases h' : lastOcc df k with
  | none => exact h
  | some u => simp

/-- After the ledger write, every working-set id has a ledger row. -/
theorem ledger_covers_df (now : Nat) (alerts : List AlertCand)
    (df : List Txn) (tbl : List LedgerRow) (t : Txn) (ht : t ∈ df) :
    ∃ l ∈ write_all_transactions now df alerts tbl,
      l.transaction_id = t.transaction_id := by
  rw [← lookupL_isSome_iff, write_all_eq, lookupL_applyRows]
  rcases lastOcc_isSome_of_mem df t ht with ⟨u, hu, _⟩
  simp [hu]

/-- The finally clause: the connection is released exactly when it was
acquired, on every path through main. -/
theorem main_conn (w : World) (db : DB) :
    (main w db).connReleased = (main w db).connAcquired := by
  simp only [main]
  repeat' split
  all_goals rfl

/-! ### Claim theorems -/

/-- C1: the classifier emits an alert candidate for a transaction iff its
numeric amount is at least 10000, every candidate is exactly the record
with that transaction_id, that amount, risk_score 90 and flagged_reason
high_amount, candidates keep the relative order of their transactions,
and at the boundary an amount of 9999.99 is not flagged while 10000.00
is flagged. -/
theorem c1_classifier_threshold :
    (∀ df : List Txn,
        detect_fraud df
          = (df.filter (fun t => decide (10000 ≤ t.amount))).map mkCand)
    ∧ tLow.amount = 9999.99 ∧ detect_fraud [tLow] = []
    ∧ tHigh.amount = 10000
    ∧ detect_fraud [tHigh]
        = [{ transaction_id := "B2", amount := 10000, risk_score := 90,
             flagged_reason := "high_amount" }] := by
  refine ⟨detect_fraud_eq, rfl, ?_, rfl, ?_⟩
  · have hlt : ¬ (10000 : ℚ) ≤ tLow.amount := by
      rw [show tLow.amount = 9999.99 from rfl]
      norm_num
    simp [detect_fraud, hlt]
  · simp [detect_fraud, mkCand, tHigh]

/-- C5: the drain repeatedly pops from the front, stopping at an empty
queue or at the cap of 5000; on an all-parseable queue it returns the
first 5000 items in queue order and leaves the rest queued, on an empty
queue it returns the empty sequence, and on a concrete queue of 6000
items exactly 5000 are removed and returned while 1000 remain. -/
theorem c5_drain_cap :
    (∀ ts : List Txn,
        drain_loop 5000 (ts.map QItem.good)
          = (.ok (ts.take 5000), (ts.map QItem.good).drop 5000))
    ∧ drain_loop 5000 ([] : List QItem) = (.ok [], [])
    ∧ (drain_loop 5000 ((sampleTxns 6000).map QItem.good)).1
        = .ok ((sampleTxns 6000).take 5000)
    ∧ ((sampleTxns 6000).take 5000).length = 5000
    ∧ ((drain_loop 5000 ((sampleTxns 6000).map QItem.good)).2).length
        = 1000 := by
  refine ⟨drain_loop_all_good 5000, ?_, ?_, ?_, ?_⟩
  · simpa using drain_loop_all_good 5000 []
  · rw [drain_loop_all_good]
  · simp [sampleTxns]
  · rw [drain_loop_all_good]
    simp [sampleTxns]

/-- C7: the working set is the drained-queue rows followed by the
secondary rows in order with no deduplication; for queue items A, B and
secondary items C, D the working set is A, B, C, D; a transaction_id in
both sources keeps both rows in the working set, and after the ledger
write the row holds the values of the later (secondary) copy. -/
theorem c7_merge_order :
    (∀ qrows base : List Txn, mergeWorkingSet qrows base = qrows ++ base)
    ∧ mergeWorkingSet [tA, tB] [tC, tD] = [tA, tB, tC, tD]
    ∧ mergeWorkingSet [tQdup] [tBdup] = [tQdup, tBdup]
    ∧ lookupL
        (write_all_transactions 7 (mergeWorkingSet [tQdup] [tBdup])
          (detect_fraud (mergeWorkingSet [tQdup] [tBdup])) []) "X"
        = some { transaction_id := "X", amount := 200,
                 location := some "CAN", device := some "Mobile",
                 processed_at := 7, is_flagged := false,
                 risk_score := none, flagged_reason := none } := by
  refine ⟨?_, by rfl, by rfl, by rfl⟩
  intro q b
  cases q with
  | nil => simp [mergeWorkingSet]
  | cons x xs => simp [mergeWorkingSet]

/-- C2: upserting the same working set twice is idempotent: starting from
a table with one row per transaction_id, the result again has one row per
transaction_id, its lookups agree with a single run at the later time, a
working-set id maps to the row built from its last occurrence with
processed_at refreshed to the second run time and all mutable fields
taken from that latest row, every working-set id has exactly one row, and
an empty working set is a no-op. -/
theorem c2_ledger_upsert_idempotent (now1 now2 : Nat) (df : List Txn)
    (alerts : List AlertCand) (tbl : List LedgerRow) (h : NodupKeys tbl) :
    NodupKeys (write_all_transactions now2 df alerts
        (write_all_transactions now1 df alerts tbl))
    ∧ (∀ k, lookupL (write_all_transactions now2 df alerts
          (write_all_transactions now1 df alerts tbl)) k
        = lookupL (write_all_transactions now2 df alerts tbl) k)
    ∧ (∀ t ∈ df, ∃ u, lastOcc df t.transaction_id = some u
        ∧ u.transaction_id = t.transaction_id
        ∧ lookupL (write_all_transactions now2 df alerts
            (write_all_transactions now1 df alerts tbl)) t.transaction_id
          = some (mkLedgerRow now2 alerts u))
    ∧ (∀ t ∈ df, ((write_all_transactions now2 df alerts
          (write_all_transactions now1 df alerts tbl)).filter
            (fun l => l.transaction_id == t.transaction_id)).length = 1)
    ∧ write_all_transactions now1 [] alerts tbl = tbl := by
  have hnodup2 : NodupKeys (write_all_transactions now2 df alerts
      (write_all_transactions now1 df alerts tbl)) := by
    rw [write_all_eq, write_all_eq]
    exact NodupKeys_applyRows now2 alerts df _
      (NodupKeys_applyRows now1 alerts df tbl h)
  have hlook : ∀ t ∈ df, ∃ u, lastOcc df t.transaction_id = some u
      ∧ u.transaction_id = t.transaction_id
      ∧ lookupL (write_all_transactions now2 df alerts
          (write_all_transactions now1 df alerts tbl)) t.transaction_id
        = some (mkLedgerRow now2 alerts u) := by
    intro t ht
    rcases lastOcc_isSome_of_mem df t ht with ⟨u, hu, hk⟩
    refine ⟨u, hu, hk, ?_⟩
    rw [write_all_eq, lookupL_applyRows]
    simp [hu]
  refine ⟨hnodup2, ?_, hlook, ?_, rfl⟩
  · intro k
    rw [write_all_eq, write_all_eq, write_all_eq, lookupL_applyRows,
      lookupL_applyRows, lookupL_applyRows]
    cases hlo : lastOcc df k with
    | some u => simp [hlo]
    | none => simp [hlo]
  · intro t ht
    rcases hlook t ht with ⟨u, _, _, hsome⟩
    exact Nat.le_antisymm
      (filter_key_le_one _ _ hnodup2)
      (filter_key_ge_one _ _ _ hsome)

/-- C3: alert insertion is insert-once: writing the same candidate list a
second time leaves the alert rows exactly as after the first write (so
created_at and every other field keep their first-insertion values),
after the first write every flagged transaction_id has a row, the table
keeps one row per transaction_id, and more generally any later write
whose candidate ids are all already present changes no row. -/
theorem c3_alert_insert_once (now1 now2 : Nat) (cands cands2 : List AlertCand)
    (tbl : AlertTable) (h : NodupAlertKeys tbl.rows) :
    (write_alerts now2 cands (write_alerts now1 cands tbl).1).1.rows
        = (write_alerts now1 cands tbl).1.rows
    ∧ (∀ c ∈ cands,
        hasAlert (write_alerts now1 cands tbl).1.rows c.transaction_id = true)
    ∧ NodupAlertKeys (write_alerts now1 cands tbl).1.rows
    ∧ ((∀ c ∈ cands2, hasAlert tbl.rows c.transaction_id = true) →
        (write_alerts now2 cands2 tbl).1.rows = tbl.rows) := by
  have hcov : ∀ c ∈ cands,
      hasAlert (write_alerts now1 cands tbl).1.rows c.transaction_id = true := by
    intro c hc
    rw [write_alerts_rows]
    exact hasAlert_foldl_insertAlert now1 cands tbl c hc
  refine ⟨?_, hcov, ?_, ?_⟩
  · rw [write_alerts_rows now2]
    exact foldl_insertAlert_rows_covered now2 cands _ hcov
  · rw [write_alerts_rows]
    exact NodupAlertKeys_foldl_insertAlert now1 cands tbl h
  · intro hcov2
    rw [write_alerts_rows]
    exact foldl_insertAlert_rows_covered now2 cands2 tbl hcov2

/-- C6: a queue item that fails to deserialize fails the whole run: main
reports the deserialization error with a nonzero exit code, writes
nothing to the database, the items popped before the failure and the
failing item itself are destructively removed from the queue, and the
connection is still released. -/
theorem c6_deser_failure_fails_run (w : World) (db : DB) (gs : List Txn)
    (s : String) (rest : List QItem)
    (hc : w.connectOk = true) (hs : w.schemaOk = true)
    (hr : w.redisConfigured = true)
    (hq : w.queue = gs.map QItem.good ++ QItem.bad s :: rest)
    (hlen : gs.length < 5000) :
    (main w db).outcome = .error .deserFailed
    ∧ exitCode (main w db) ≠ 0
    ∧ (main w db).db = db
    ∧ (main w db).queue = rest
    ∧ (main w db).connReleased = true := by
  have hdrain : drain_queue w.redisConfigured w.queue = (.error (), rest) := by
    rw [hr, hq]
    unfold drain_queue
    rw [if_pos rfl, drain_loop_bad 5000 gs s rest hlen]
  simp [main, hc, hs, hdrain, exitCode]

/-- C9: on every exit path where the connection was acquired it is also
released before the run ends, and any failure surfaces as a nonzero exit
code. -/
theorem c9_connection_released (w : World) (db : DB)
    (h : (main w db).connAcquired = true) :
    (main w db).connReleased = true
    ∧ (∀ e : RunErr, (main w db).outcome = .error e →
        exitCode (main w db) ≠ 0) := by
  refine ⟨by rw [main_conn, h], ?_⟩
  intro e he
  simp [exitCode, he]

/-- C10: with no queue configured, drain_queue touches no queue state and
returns an empty row set carrying the four transaction columns, a run of
main leaves the queue exactly as it was, and write_alerts on an empty
candidate list returns 0 and leaves the alert table untouched. -/
theorem c10_no_queue_no_access (w : World) (db : DB) (q : List QItem)
    (now : Nat) (tbl : AlertTable) (h : w.redisConfigured = false) :
    drain_queue false q = (.ok ⟨txnCols, []⟩, q)
    ∧ txnCols = ["transaction_id", "amount", "location", "device"]
    ∧ write_alerts now [] tbl = (tbl, 0)
    ∧ (main w db).queue = w.queue := by
  refine ⟨rfl, rfl, rfl, ?_⟩
  have hdrain : drain_queue w.redisConfigured w.queue
      = (.ok ⟨txnCols, []⟩, w.queue) := by rw [h]; rfl
  by_cases hc : w.connectOk
  · by_cases hs : w.schemaOk
    · simp only [main, hc, hs, if_true, hdrain]
      cases hload : load_file_or_synthetic w.file w.now with
      | error e => rfl
      | ok base =>
        simp only []
        split
        · rfl
        · split
          · rfl
          · rfl
    · simp [main, hc, hs]
  · simp [main, hc]

/-- C4: every alert candidate id is the id of some working-set
transaction, and one run of main — on any path, including a failed alert
write after a committed ledger write — preserves the invariant that every
alert row has a ledger row with the same transaction_id, since the ledger
is written before the alerts. -/
theorem c4_alerts_subset_ledger (w : World) (db : DB)
    (h : AlertsSubsetLedger db) :
    AlertsSubsetLedger (main w db).db
    ∧ (∀ df : List Txn, ∀ c ∈ detect_fraud df,
        ∃ t ∈ df, c.transaction_id = t.transaction_id) := by
  refine ⟨?_, fun df c hc => detect_fraud_ids df c hc⟩
  unfold AlertsSubsetLedger at h ⊢
  by_cases hc : w.connectOk
  · by_cases hs : w.schemaOk
    · rcases hdq : drain_queue w.redisConfigured w.queue with ⟨res, q2⟩
      cases res with
      | error e => simpa [main, hc, hs, hdq] using h
      | ok qdf =>
        cases hload : load_file_or_synthetic w.file w.now with
        | error e => simpa [main, hc, hs, hdq, hload] using h
        | ok base =>
          simp only [main, hc, hs, if_true, hdq, hload]
          split
          · exact h
          · split
            · intro a ha
              exact subset_ledger_write_all w.now _ _ db.ledger _ (h a ha)
            · intro a ha
              rw [write_alerts_rows] at ha
              rcases mem_foldl_insertAlert w.now _ db.alertT a ha with
                hmem | ⟨c, hcm, hk⟩
              · exact subset_ledger_write_all w.now _ _ db.ledger _ (h a hmem)
              · rcases detect_fraud_ids _ c hcm with ⟨t, htm, hct⟩
                rw [hk, hct]
                exact ledger_covers_df w.now _ _ db.ledger t htm
    · simpa [main, hc, hs] using h
  · simpa [main, hc] using h

/-- C8 counterexample: the synthetic generator is gated by no flag — with
no secondary file present the loader returns the 50 synthetic records
unconditionally and a healthy run silently processes them to a successful
exit, refuting the only-when-gated clause of the claim. -/
theorem c8_synthetic_ungated_cex :
    load_file_or_synthetic none 1000 = .ok (synthetic_records 1000)
    ∧ (synthetic_records 1000).length = 50
    ∧ (main w10 db0).outcome
        = .ok { total_transactions := 50, total_flagged := 7,
                alerts_inserted := 7 }
    ∧ exitCode (main w10 db0) = 0 := by
  refine ⟨rfl, by simp [synthetic_records], rfl, rfl⟩

/-- C8 amended: a present secondary file missing transaction_id or amount
aborts the run with the file error, a nonzero exit code and the database
untouched; when no file is present the loader substitutes the synthetic
generator unconditionally (no flag gates it), producing 50 records seeded
by the base id whose i-th record (1-based) has id TXN(base + i), amount
25 * i with a 25000 spike when i is divisible by 7, location USA except
CAN when i is divisible by 3, and device Web for odd i, Mobile for even
i. -/
theorem c8_secondary_source_loading (w : World) (db : DB) (f : CsvFile)
    (t i : Nat)
    (hf : w.file = some f)
    (hcols : "transaction_id" ∉ f.cols ∨ "amount" ∉ f.cols)
    (hc : w.connectOk = true) (hs : w.schemaOk = true)
    (hr : w.redisConfigured = false)
    (hi : i < 50) :
    (main w db).db = db
    ∧ (main w db).outcome = .error .badFile
    ∧ exitCode (main w db) ≠ 0
    ∧ load_file_or_synthetic none t = .ok (synthetic_records t)
    ∧ (∃ r, (synthetic_records t)[i]? = some r
        ∧ r.transaction_id = "TXN" ++ toString (t + (i + 1))
        ∧ r.amount
            = (if (i + 1) % 7 = 0 then 25000 else ((25 * (i + 1) : ℕ) : ℚ))
        ∧ r.location = some (if (i + 1) % 3 = 0 then "CAN" else "USA")
        ∧ r.device = some (if (i + 1) % 2 = 0 then "Mobile" else "Web")) := by
  have hdrain : drain_queue w.redisConfigured w.queue
      = (.ok ⟨txnCols, []⟩, w.queue) := by rw [hr]; rfl
  have hload : load_file_or_synthetic w.file w.now = .error .missingColumns := by
    rw [hf]
    rw [show load_file_or_synthetic (some f) w.now
        = if "transaction_id" ∈ f.cols ∧ "amount" ∈ f.cols then .ok f.rows
          else .error .missingColumns from rfl]
    rw [if_neg]
    rintro ⟨h1, h2⟩
    rcases hcols with hcols | hcols
    · exact hcols h1
    · exact hcols h2
  refine ⟨?_, ?_, ?_, rfl, ?_⟩
  · simp [main, hc, hs, hdrain, hload]
  · simp [main, hc, hs, hdrain, hload]
  · simp [main, hc, hs, hdrain, hload, exitCode]
  · unfold synthetic_records
    rw [List.getElem?_map, List.getElem?_range hi]
    exact ⟨_, rfl, rfl, rfl, rfl, rfl⟩

/-! ### Witnesses instantiating the hypotheses of the claim theorems -/

/-- Witness for C2: the inputs of the idempotence theorem are satisfiable
at a concrete working set over the empty ledger. -/
theorem c2_ledger_upsert_idempotent_witness :
    NodupKeys []
    ∧ (NodupKeys (write_all_transactions 2 [tA] []
          (write_all_transactions 1 [tA] [] []))
      ∧ (∀ k, lookupL (write_all_transactions 2 [tA] []
            (write_all_transactions 1 [tA] [] [])) k
          = lookupL (write_all_transactions 2 [tA] [] []) k)
      ∧ (∀ t ∈ [tA], ∃ u, lastOcc [tA] t.transaction_id = some u
          ∧ u.transaction_id = t.transaction_id
          ∧ lookupL (write_all_transactions 2 [tA] []
              (write_all_transactions 1 [tA] [] [])) t.transaction_id
            = some (mkLedgerRow 2 [] u))
      ∧ (∀ t ∈ [tA], ((write_all_transactions 2 [tA] []
            (write_all_transactions 1 [tA] [] [])).filter
              (fun l => l.transaction_id == t.transaction_id)).length = 1)
      ∧ write_all_transactions 1 [] [] [] = []) :=
  ⟨by simp [NodupKeys, keysOf],
    c2_ledger_upsert_idempotent 1 2 [tA] [] [] (by simp [NodupKeys, keysOf])⟩

/-- Witness for C3: the insert-once theorem applies to a concrete
candidate over the empty alert table. -/
theorem c3_alert_insert_once_witness :
    NodupAlertKeys db0.alertT.rows
    ∧ ((write_alerts 2 [cX] (write_alerts 1 [cX] db0.alertT).1).1.rows
          = (write_alerts 1 [cX] db0.alertT).1.rows
      ∧ (∀ c ∈ [cX], hasAlert (write_alerts 1 [cX] db0.alertT).1.rows
            c.transaction_id = true)
      ∧ NodupAlertKeys (write_alerts 1 [cX] db0.alertT).1.rows
      ∧ ((∀ c ∈ [cX], hasAlert db0.alertT.rows c.transaction_id = true) →
          (write_alerts 2 [cX] db0.alertT).1.rows = db0.alertT.rows)) :=
  ⟨by simp [NodupAlertKeys, db0],
    c3_alert_insert_once 1 2 [cX] [cX] db0.alertT
      (by simp [NodupAlertKeys, db0])⟩

/-- Witness for C4: the subset invariant holds of the empty database and
is preserved by a concrete healthy run. -/
theorem c4_alerts_subset_ledger_witness :
    AlertsSubsetLedger db0
    ∧ (AlertsSubsetLedger (main w10 db0).db
      ∧ (∀ df : List Txn, ∀ c ∈ detect_fraud df,
          ∃ t ∈ df, c.transaction_id = t.transaction_id)) :=
  ⟨by simp [AlertsSubsetLedger, db0],
    c4_alerts_subset_ledger w10 db0 (by simp [AlertsSubsetLedger, db0])⟩

/-- Witness for C6: a queue holding one unparsable item fails a concrete
run, removing the item and releasing the connection. -/
theorem c6_deser_failure_fails_run_witness :
    w6.connectOk = true ∧ w6.schemaOk = true ∧ w6.redisConfigured = true
    ∧ w6.queue = List.map QItem.good [] ++ QItem.bad "oops" :: []
    ∧ List.length ([] : List Txn) < 5000
    ∧ ((main w6 db0).outcome = .error .deserFailed
      ∧ exitCode (main w6 db0) ≠ 0
      ∧ (main w6 db0).db = db0
      ∧ (main w6 db0).queue = []
      ∧ (main w6 db0).connReleased = true) :=
  ⟨rfl, rfl, rfl, rfl, by decide,
    c6_deser_failure_fails_run w6 db0 [] "oops" [] rfl rfl rfl rfl
      (by decide)⟩

/-- Witness for C8 amended: a concrete file missing both required columns
aborts a concrete run, and the 7th synthetic record carries the spike. -/
theorem c8_secondary_source_loading_witness :
    w8.file = some badCsv
    ∧ ("transaction_id" ∉ badCsv.cols ∨ "amount" ∉ badCsv.cols)
    ∧ w8.connectOk = true ∧ w8.schemaOk = true
    ∧ w8.redisConfigured = false ∧ 6 < 50
    ∧ ((main w8 db0).db = db0
      ∧ (main w8 db0).outcome = .error .badFile
      ∧ exitCode (main w8 db0) ≠ 0
      ∧ load_file_or_synthetic none 5 = .ok (synthetic_records 5)
      ∧ (∃ r, (synthetic_records 5)[6]? = some r
          ∧ r.transaction_id = "TXN" ++ toString (5 + (6 + 1))
          ∧ r.amount
              = (if (6 + 1) % 7 = 0 then 25000 else ((25 * (6 + 1) : ℕ) : ℚ))
          ∧ r.location = some (if (6 + 1) % 3 = 0 then "CAN" else "USA")
          ∧ r.device = some (if (6 + 1) % 2 = 0 then "Mobile" else "Web"))) :=
  ⟨rfl, Or.inl (by decide), rfl, rfl, rfl, by decide,
    c8_secondary_source_loading w8 db0 badCsv 5 6 rfl (Or.inl (by decide))
      rfl rfl rfl (by decide)⟩

/-- Witness for C9: a run whose schema DDL fails still acquired the
connection, releases it and exits nonzero. -/
theorem c9_connection_released_witness :
    (main w9 db0).connAcquired = true
    ∧ ((main w9 db0).connReleased = true
      ∧ (∀ e : RunErr, (main w9 db0).outcome = .error e →
          exitCode (main w9 db0) ≠ 0)) :=
  ⟨rfl, c9_connection_released w9 db0 rfl⟩

/-- Witness for C10: a concrete run with no queue configured leaves the
queue untouched. -/
theorem c10_no_queue_no_access_witness :
    w10.redisConfigured = false
    ∧ (drain_queue false [] = (.ok ⟨txnCols, []⟩, [])
      ∧ txnCols = ["transaction_id", "amount", "location", "device"]
      ∧ write_alerts 0 [] db0.alertT = (db0.alertT, 0)
      ∧ (main w10 db0).queue = w10.queue) :=
  ⟨rfl, c10_no_queue_no_access w10 db0 [] 0 db0.alertT rfl⟩

end Pipeline
